import Mathlib

/-!
Verification development for the Morpheus DOCA packet-capture path.

This file shallowly embeds the packet-path code of the repository:

* `morpheus/_lib/doca/src/doca_convert_stage.cpp`
  (`concat_packet_buffers`, `DocaConvertStage::on_raw_packet_message`,
  `DocaConvertStage::buffer_reader`)
* `morpheus/_lib/src/stages/doca_source.cpp`
  (`ip_to_int`, `DocaSourceStage::DocaSourceStage`, `DocaSourceStage::build`)
* `morpheus/_lib/doca/src/doca_rx_pipe.cpp`
  (`DocaRxPipe::DocaRxPipe`, `DocaRxPipe::~DocaRxPipe`)

Device buffers (`rmm::device_buffer`) are modelled as Lean lists.  The
header buffer and the payload-sizes buffer both hold `uint32_t` words, so
they are modelled at word granularity (`List Nat`, one entry per 32-bit
word); their device byte size is `4 *` word count, and every byte offset
the code uses into them is a multiple of 4, so word-level copies coincide
with the byte-level `cudaMemcpyAsync` copies of the C++ code.  The payload
buffer holds raw bytes and is modelled at byte granularity.
-/

/-- Fixed per-packet header stride in bytes: the convert stage stores one
`uint32_t` (the source IP) per packet, `sizeof(uint32_t) == 4`. -/
def header_stride : Nat := 4

/-- Model of `morpheus::doca::packet_data_buffer`: a structure-of-arrays
snapshot of one capture batch.  `m_header_buffer` and
`m_payload_sizes_buffer` are word-level views (one `Nat` per `uint32_t`),
`m_payload_buffer` is byte-level.  The CUDA stream tag is not modelled. -/
structure packet_data_buffer where
  m_num_packets : Nat
  m_header_buffer : List Nat
  m_payload_buffer : List Nat
  m_payload_sizes_buffer : List Nat
deriving DecidableEq, Repr

/-- Device byte size of `m_header_buffer` (each word is 4 bytes). -/
def headerByteSize (b : packet_data_buffer) : Nat := 4 * b.m_header_buffer.length

/-- Device byte size of `m_payload_buffer` (raw bytes). -/
def payloadByteSize (b : packet_data_buffer) : Nat := b.m_payload_buffer.length

/-- Device byte size of `m_payload_sizes_buffer` (each `uint32_t` size entry
is 4 bytes). -/
def sizesByteSize (b : packet_data_buffer) : Nat := 4 * b.m_payload_sizes_buffer.length

/-- Modelled from the spec: the `packet_data_buffer` sizing constructor
(`packet_data_buffer.cpp` is not part of the provided sources; per the spec
each sub-buffer is "sized exactly to the batch's needs").  It allocates an
uninitialized (modelled as zero-filled) header buffer of `header_bytes`
bytes, payload buffer of `payload_bytes` bytes and payload-sizes buffer of
`payload_sizes_bytes` bytes.  Word-level buffers store `bytes / 4` words;
every call site passes a multiple of 4. -/
def pdbAlloc (num_packets header_bytes payload_bytes payload_sizes_bytes : Nat) :
    packet_data_buffer :=
  { m_num_packets := num_packets
    m_header_buffer := List.replicate (header_bytes / 4) 0
    m_payload_buffer := List.replicate payload_bytes 0
    m_payload_sizes_buffer := List.replicate (payload_sizes_bytes / 4) 0 }

/-- Model of one `cudaMemcpyAsync(dst + off, src, src.size(), ...)`: the
`src.length` entries of `dst` starting at `off` are replaced by `src`. -/
def overwrite (dst : List Nat) (off : Nat) (src : List Nat) : List Nat :=
  dst.take off ++ src ++ dst.drop (off + src.length)

/-- Model of the copy loop of `concat_packet_buffers` for a single field:
each source buffer is copied into `dst` at the current cumulative offset
and the offset advances by that buffer's size (`curr_*_offset += ...`).
The C++ loop interleaves the three fields in one pass; since the three
destination buffers are disjoint that is equivalent to one pass per
field. -/
def copy_all (dst : List Nat) (off : Nat) : List (List Nat) → List Nat
  | [] => dst
  | s :: rest => copy_all (overwrite dst off s) (off + s.length) rest

/-- Model of `concat_packet_buffers` (doca_convert_stage.cpp lines 72-124):
if exactly one buffer is given it is moved out unchanged; otherwise a
combined buffer is allocated with the caller-supplied totals and each
source buffer's three sub-buffers are copied device-to-device at strictly
increasing cumulative offsets, in list order.  (`DCHECK(!empty)` is
debug-only; the empty case never occurs at the call site.) -/
def concat_packet_buffers (ttl_packets ttl_header_bytes ttl_payload_bytes
    ttl_payload_sizes_bytes : Nat)
    (packet_buffers : List packet_data_buffer) : packet_data_buffer :=
  match packet_buffers with
  | [b] => b
  | bufs =>
    let combined := pdbAlloc ttl_packets ttl_header_bytes ttl_payload_bytes
        ttl_payload_sizes_bytes
    { m_num_packets := combined.m_num_packets
      m_header_buffer := copy_all combined.m_header_buffer 0 (bufs.map (·.m_header_buffer))
      m_payload_buffer := copy_all combined.m_payload_buffer 0 (bufs.map (·.m_payload_buffer))
      m_payload_sizes_buffer :=
        copy_all combined.m_payload_sizes_buffer 0 (bufs.map (·.m_payload_sizes_buffer)) }

/-- One incoming `RawPacketMessage`: per packet, the 32-bit header word the
gather-header kernel extracts (the source IP) and the raw payload bytes.
`count()` is `pkts.length`, `get_pkt_pld_size_list()` is
`pkts.map (·.2.length)`. -/
structure RawPacketMessage where
  pkts : List (Nat × List Nat)
deriving DecidableEq, Repr

/-- Modelled from the spec: `doca::gather_sizes` (device kernel, not in the
provided sources) reduces the per-packet payload size list to the total
payload byte count. -/
def gather_sizes (pld_sizes : List Nat) : Nat := pld_sizes.sum

/-- Model of `DocaConvertStage::on_raw_packet_message`
(doca_convert_stage.cpp lines 208-249): computes
`payload_buff_size = gather_sizes(...)`,
`header_buff_size = packet_count * sizeof(uint32_t)`,
`sizes_buff_size = packet_count * sizeof(uint32_t)`, allocates an
exactly-sized `packet_data_buffer`, then fills it: `gather_payload` writes
all payload bytes in packet order, `gather_header` writes one header word
per packet, and a `cudaMemcpyAsync` copies the payload-size list into the
sizes buffer.  The two gather kernels are not in the provided sources;
their writes are modelled from the spec ("scatter fields from the raw
captured bytes into the per-field output buffers", in packet order). -/
def on_raw_packet_message (msg : RawPacketMessage) : packet_data_buffer :=
  let packet_count := msg.pkts.length
  let pld_sizes := msg.pkts.map (fun p => p.2.length)
  let payload_buff_size := gather_sizes pld_sizes
  let header_buff_size := packet_count * 4
  let sizes_buff_size := packet_count * 4
  let pb := pdbAlloc packet_count header_buff_size payload_buff_size sizes_buff_size
  { pb with
    m_payload_buffer := overwrite pb.m_payload_buffer 0 ((msg.pkts.map (fun p => p.2)).flatten)
    m_header_buffer := overwrite pb.m_header_buffer 0 (msg.pkts.map (fun p => p.1))
    m_payload_sizes_buffer := overwrite pb.m_payload_sizes_buffer 0 pld_sizes }

/-- Running total of packet counts over a list of buffers, as accumulated
by `ttl_packets += packet_buffer.m_num_packets` in `buffer_reader`. -/
def ttlPackets (l : List packet_data_buffer) : Nat := (l.map (·.m_num_packets)).sum

/-- Running total of header byte sizes (`ttl_header_bytes`). -/
def ttlHeaderBytes (l : List packet_data_buffer) : Nat := (l.map headerByteSize).sum

/-- Running total of payload byte sizes (`ttl_payload_bytes`). -/
def ttlPayloadBytes (l : List packet_data_buffer) : Nat := (l.map payloadByteSize).sum

/-- Running total of payload-sizes byte sizes (`ttl_payload_sizes_bytes`). -/
def ttlSizesBytes (l : List packet_data_buffer) : Nat := (l.map sizesByteSize).sum

/-- The concatenation exactly as `buffer_reader` invokes it: the four
totals are the running sums accumulated while draining the channel. -/
def concat_all (l : List packet_data_buffer) : packet_data_buffer :=
  concat_packet_buffers (ttlPackets l) (ttlHeaderBytes l) (ttlPayloadBytes l)
    (ttlSizesBytes l) l

section ListLemmas

theorem length_overwrite (dst src : List Nat) (off : Nat)
    (h : off + src.length ≤ dst.length) :
    (overwrite dst off src).length = dst.length := by
  simp only [overwrite, List.length_append, List.length_take, List.length_drop]
  omega

theorem overwrite_exact (dst src : List Nat) (h : src.length = dst.length) :
    overwrite dst 0 src = src := by
  simp [overwrite, List.drop_eq_nil_of_le, h]

theorem copy_all_exact : ∀ (srcs : List (List Nat)) (dst : List Nat) (off : Nat),
    dst.length = off + (srcs.map List.length).sum →
    copy_all dst off srcs = dst.take off ++ srcs.flatten := by
  intro srcs
  induction srcs with
  | nil =>
    intro dst off h
    simp only [List.map_nil, List.sum_nil, Nat.add_zero] at h
    simp [copy_all, List.take_of_length_le (Nat.le_of_eq h)]
  | cons s rest ih =>
    intro dst off h
    simp only [List.map_cons, List.sum_cons] at h
    have hfits : off + s.length ≤ dst.length := by omega
    have hlen : (overwrite dst off s).length = dst.length :=
      length_overwrite dst s off hfits
    have hrec : copy_all (overwrite dst off s) (off + s.length) rest =
        (overwrite dst off s).take (off + s.length) ++ rest.flatten := by
      apply ih
      rw [hlen]
      omega
    have htake : (overwrite dst off s).take (off + s.length) = dst.take off ++ s := by
      have h1 : (dst.take off ++ s).length = off + s.length := by
        simp only [List.length_append, List.length_take]
        omega
      calc (overwrite dst off s).take (off + s.length)
          = ((dst.take off ++ s) ++ dst.drop (off + s.length)).take (off + s.length) := by
            simp [overwrite, List.append_assoc]
        _ = ((dst.take off ++ s) ++ dst.drop (off + s.length)).take
              (dst.take off ++ s).length := by rw [h1]
        _ = dst.take off ++ s := List.take_left _ _
    simp only [copy_all, hrec, htake, List.flatten_cons, List.append_assoc]

end ListLemmas

section ConcatLemmas

theorem ttlHeaderBytes_eq (l : List packet_data_buffer) :
    ttlHeaderBytes l = 4 * (l.map (fun b => b.m_header_buffer.length)).sum := by
  unfold ttlHeaderBytes headerByteSize
  induction l with
  | nil => simp
  | cons a t ih => simp only [List.map_cons, List.sum_cons, ih]; ring

theorem ttlSizesBytes_eq (l : List packet_data_buffer) :
    ttlSizesBytes l = 4 * (l.map (fun b => b.m_payload_sizes_buffer.length)).sum := by
  unfold ttlSizesBytes sizesByteSize
  induction l with
  | nil => simp
  | cons a t ih => simp only [List.map_cons, List.sum_cons, ih]; ring

theorem concat_all_header (l : List packet_data_buffer) :
    (concat_all l).m_header_buffer = (l.map (·.m_header_buffer)).flatten := by
  unfold concat_all
  match l with
  | [b] => simp [concat_packet_buffers]
  | [] =>
    simp [concat_packet_buffers, pdbAlloc, copy_all, ttlHeaderBytes]
  | a :: b :: rest =>
    show copy_all (pdbAlloc _ (ttlHeaderBytes (a :: b :: rest)) _ _).m_header_buffer 0
        ((a :: b :: rest).map (·.m_header_buffer)) = _
    rw [copy_all_exact]
    · simp [pdbAlloc]
    · simp only [pdbAlloc, List.length_replicate, ttlHeaderBytes_eq, List.map_map]
      rw [Nat.mul_div_cancel_left _ (by norm_num : 0 < 4)]
      simp [Function.comp_def]

theorem concat_all_payload (l : List packet_data_buffer) :
    (concat_all l).m_payload_buffer = (l.map (·.m_payload_buffer)).flatten := by
  unfold concat_all
  match l with
  | [b] => simp [concat_packet_buffers]
  | [] => simp [concat_packet_buffers, pdbAlloc, copy_all, ttlPayloadBytes]
  | a :: b :: rest =>
    show copy_all (pdbAlloc _ _ (ttlPayloadBytes (a :: b :: rest)) _).m_payload_buffer 0
        ((a :: b :: rest).map (·.m_payload_buffer)) = _
    rw [copy_all_exact]
    · simp [pdbAlloc]
    · simp only [pdbAlloc, List.length_replicate, ttlPayloadBytes, List.map_map,
        Nat.zero_add]
      rfl

theorem concat_all_sizes (l : List packet_data_buffer) :
    (concat_all l).m_payload_sizes_buffer = (l.map (·.m_payload_sizes_buffer)).flatten := by
  unfold concat_all
  match l with
  | [b] => simp [concat_packet_buffers]
  | [] => simp [concat_packet_buffers, pdbAlloc, copy_all, ttlSizesBytes]
  | a :: b :: rest =>
    show copy_all (pdbAlloc _ _ _ (ttlSizesBytes (a :: b :: rest))).m_payload_sizes_buffer 0
        ((a :: b :: rest).map (·.m_payload_sizes_buffer)) = _
    rw [copy_all_exact]
    · simp [pdbAlloc]
    · simp only [pdbAlloc, List.length_replicate, ttlSizesBytes_eq, List.map_map]
      rw [Nat.mul_div_cancel_left _ (by norm_num : 0 < 4)]
      simp [Function.comp_def]

theorem concat_all_count (l : List packet_data_buffer) :
    (concat_all l).m_num_packets = ttlPackets l := by
  unfold concat_all
  match l with
  | [b] => simp [concat_packet_buffers, ttlPackets]
  | [] => simp [concat_packet_buffers, pdbAlloc, ttlPackets]
  | a :: b :: rest => rfl

end ConcatLemmas

section OnRawLemmas

theorem on_raw_count (msg : RawPacketMessage) :
    (on_raw_packet_message msg).m_num_packets = msg.pkts.length := rfl

theorem on_raw_header (msg : RawPacketMessage) :
    (on_raw_packet_message msg).m_header_buffer = msg.pkts.map (fun p => p.1) := by
  show overwrite (List.replicate (msg.pkts.length * 4 / 4) 0) 0 _ = _
  rw [overwrite_exact]
  simp [Nat.mul_div_cancel]

theorem on_raw_sizes (msg : RawPacketMessage) :
    (on_raw_packet_message msg).m_payload_sizes_buffer =
      msg.pkts.map (fun p => p.2.length) := by
  show overwrite (List.replicate (msg.pkts.length * 4 / 4) 0) 0 _ = _
  rw [overwrite_exact]
  simp [Nat.mul_div_cancel]

theorem on_raw_payload (msg : RawPacketMessage) :
    (on_raw_packet_message msg).m_payload_buffer =
      (msg.pkts.map (fun p => p.2)).flatten := by
  show overwrite (List.replicate (gather_sizes (msg.pkts.map (fun p => p.2.length))) 0) 0 _ = _
  rw [overwrite_exact]
  simp [gather_sizes, List.length_flatten, List.map_map, Function.comp_def]

end OnRawLemmas

/-- Claim C1: for every non-empty capture batch turned into a
`packet_data_buffer` by `on_raw_packet_message`, the three sub-buffers are
mutually consistent: the header buffer's byte size is the packet count
times the fixed header stride, the payload-sizes buffer has one entry per
packet, and the payload buffer's byte size equals the sum of the
per-packet payload sizes. -/
theorem packet_data_buffer_consistency (msg : RawPacketMessage) (_h : msg.pkts ≠ []) :
    headerByteSize (on_raw_packet_message msg) =
      (on_raw_packet_message msg).m_num_packets * header_stride
    ∧ (on_raw_packet_message msg).m_payload_sizes_buffer.length =
      (on_raw_packet_message msg).m_num_packets
    ∧ (on_raw_packet_message msg).m_payload_sizes_buffer.sum =
      payloadByteSize (on_raw_packet_message msg) := by
  refine ⟨?_, ?_, ?_⟩
  · rw [headerByteSize, on_raw_header, on_raw_count, header_stride]
    simp [Nat.mul_comm]
  · rw [on_raw_sizes, on_raw_count]
    simp
  · rw [on_raw_sizes, payloadByteSize, on_raw_payload]
    simp [List.length_flatten, List.map_map, Function.comp_def]

/-- Concrete two-packet message used to witness claim C1. -/
def c1_msg : RawPacketMessage := ⟨[(5, [1, 2]), (7, [3])]⟩

theorem packet_data_buffer_consistency_witness :
    c1_msg.pkts ≠ [] ∧
    (headerByteSize (on_raw_packet_message c1_msg) =
      (on_raw_packet_message c1_msg).m_num_packets * header_stride
    ∧ (on_raw_packet_message c1_msg).m_payload_sizes_buffer.length =
      (on_raw_packet_message c1_msg).m_num_packets
    ∧ (on_raw_packet_message c1_msg).m_payload_sizes_buffer.sum =
      payloadByteSize (on_raw_packet_message c1_msg)) :=
  ⟨by decide, packet_data_buffer_consistency c1_msg (by decide)⟩

/-- Claim C4: when `concat_packet_buffers` is invoked with the running
per-field totals of the incoming buffers (exactly as `buffer_reader`
computes them), each combined sub-buffer is the concatenation of the
corresponding source sub-buffers in the order the buffers were received:
all data of an earlier buffer precedes all data of a later one, with no
interleaving. -/
theorem concat_preserves_order (bufs : List packet_data_buffer)
    (tp th tpl ts : Nat)
    (h1 : tp = ttlPackets bufs) (h2 : th = ttlHeaderBytes bufs)
    (h3 : tpl = ttlPayloadBytes bufs) (h4 : ts = ttlSizesBytes bufs) :
    (concat_packet_buffers tp th tpl ts bufs).m_header_buffer =
      (bufs.map (·.m_header_buffer)).flatten
    ∧ (concat_packet_buffers tp th tpl ts bufs).m_payload_buffer =
      (bufs.map (·.m_payload_buffer)).flatten
    ∧ (concat_packet_buffers tp th tpl ts bufs).m_payload_sizes_buffer =
      (bufs.map (·.m_payload_sizes_buffer)).flatten := by
  subst h1; subst h2; subst h3; subst h4
  exact ⟨concat_all_header bufs, concat_all_payload bufs, concat_all_sizes bufs⟩

/-- Concrete buffers used to witness claim C4 (buffer A, one packet). -/
def c4A : packet_data_buffer := ⟨1, [10], [1, 2], [2]⟩

/-- Concrete buffers used to witness claim C4 (buffer B, two packets). -/
def c4B : packet_data_buffer := ⟨2, [20, 30], [3, 4, 5], [1, 2]⟩

theorem concat_preserves_order_witness :
    (3 = ttlPackets [c4A, c4B] ∧ 12 = ttlHeaderBytes [c4A, c4B]
      ∧ 5 = ttlPayloadBytes [c4A, c4B] ∧ 12 = ttlSizesBytes [c4A, c4B])
    ∧ ((concat_packet_buffers 3 12 5 12 [c4A, c4B]).m_header_buffer =
        ([c4A, c4B].map (·.m_header_buffer)).flatten
      ∧ (concat_packet_buffers 3 12 5 12 [c4A, c4B]).m_payload_buffer =
        ([c4A, c4B].map (·.m_payload_buffer)).flatten
      ∧ (concat_packet_buffers 3 12 5 12 [c4A, c4B]).m_payload_sizes_buffer =
        ([c4A, c4B].map (·.m_payload_sizes_buffer)).flatten) :=
  ⟨⟨by decide, by decide, by decide, by decide⟩,
    concat_preserves_order [c4A, c4B] 3 12 5 12
      (by decide) (by decide) (by decide) (by decide)⟩

/-- Claim C5: the batch merge is associative in its totals — concatenating
`[A, B, C]` yields the same packet count and per-field byte totals as first
concatenating `[A]` and then concatenating the result with `[B, C]`, and
the totals of a concatenation are the sums of the per-buffer totals. -/
theorem concat_assoc_totals (A B C : packet_data_buffer) :
    ((concat_all [A, B, C]).m_num_packets =
        (concat_all [concat_all [A], B, C]).m_num_packets
      ∧ headerByteSize (concat_all [A, B, C]) =
        headerByteSize (concat_all [concat_all [A], B, C])
      ∧ payloadByteSize (concat_all [A, B, C]) =
        payloadByteSize (concat_all [concat_all [A], B, C])
      ∧ sizesByteSize (concat_all [A, B, C]) =
        sizesByteSize (concat_all [concat_all [A], B, C]))
    ∧ ((concat_all [A, B, C]).m_num_packets =
        A.m_num_packets + B.m_num_packets + C.m_num_packets
      ∧ headerByteSize (concat_all [A, B, C]) =
        headerByteSize A + headerByteSize B + headerByteSize C
      ∧ payloadByteSize (concat_all [A, B, C]) =
        payloadByteSize A + payloadByteSize B + payloadByteSize C
      ∧ sizesByteSize (concat_all [A, B, C]) =
        sizesByteSize A + sizesByteSize B + sizesByteSize C) := by
  constructor
  · exact ⟨rfl, rfl, rfl, rfl⟩
  · refine ⟨?_, ?_, ?_, ?_⟩
    · rw [concat_all_count]
      simp [ttlPackets]
      omega
    · rw [headerByteSize, concat_all_header]
      simp only [List.length_flatten, List.map_map, List.map_cons, List.map_nil,
        List.sum_cons, List.sum_nil]
      simp [headerByteSize, Function.comp_def]
      ring
    · rw [payloadByteSize, concat_all_payload]
      simp only [List.length_flatten, List.map_map, List.map_cons, List.map_nil,
        List.sum_cons, List.sum_nil]
      simp [payloadByteSize, Function.comp_def]
      omega
    · rw [sizesByteSize, concat_all_sizes]
      simp only [List.length_flatten, List.map_map, List.map_cons, List.map_nil,
        List.sum_cons, List.sum_nil]
      simp [sizesByteSize, Function.comp_def]
      ring

/-- Model of the per-window accumulation of `DocaConvertStage::buffer_reader`
(doca_convert_stage.cpp lines 251-285): after the time window, if at least
one buffer was read from the channel the running totals and the collected
buffers are handed to `concat_packet_buffers` and the combined buffer is
emitted (`send_buffered_data`); if the window collected nothing, nothing
is emitted. -/
def window_emit (received : List packet_data_buffer) : Option packet_data_buffer :=
  if received.isEmpty then none else some (concat_all received)

/-- Model of the producer side feeding one batching window: each capture
cycle delivers one `RawPacketMessage`; a cycle that reports zero packets
emits nothing upstream (`if (packet_count == 0) continue;` in
`DocaSourceStage::build`), so only non-empty cycles contribute a
`packet_data_buffer` (via `on_raw_packet_message`) to the channel. -/
def window_received (cycles : List RawPacketMessage) : List packet_data_buffer :=
  (cycles.filter (fun m => m.pkts.length != 0)).map on_raw_packet_message

/-- The three capture cycles of the C6 scenario: 100 packets, 0 packets,
50 packets, each packet of the first cycle carrying 2 payload bytes and
each packet of the third carrying 1 payload byte. -/
def c6_cycle_a : RawPacketMessage := ⟨List.replicate 100 (5, [1, 2])⟩

/-- Second capture cycle of the C6 scenario: zero packets. -/
def c6_cycle_b : RawPacketMessage := ⟨[]⟩

/-- Third capture cycle of the C6 scenario: 50 packets. -/
def c6_cycle_c : RawPacketMessage := ⟨List.replicate 50 (7, [9])⟩

set_option maxRecDepth 100000

/-- Claim C6: a batching window that received at least one buffer emits
exactly one combined batch whose packet count and payload bytes are the
sums over the received buffers; a window that received nothing emits
nothing; and the concrete 100/0/50-packet scenario yields one batch of
150 packets whose payload bytes are the sum of the two non-empty cycles'
payload bytes. -/
theorem window_batching :
    (∀ received : List packet_data_buffer, received ≠ [] →
      window_emit received = some (concat_all received)
      ∧ (concat_all received).m_num_packets = ttlPackets received
      ∧ payloadByteSize (concat_all received) = ttlPayloadBytes received)
    ∧ window_emit [] = none
    ∧ ((window_emit (window_received [c6_cycle_a, c6_cycle_b, c6_cycle_c])).map
        (·.m_num_packets) = some 150
      ∧ (window_emit (window_received [c6_cycle_a, c6_cycle_b, c6_cycle_c])).map
        payloadByteSize =
        some (payloadByteSize (on_raw_packet_message c6_cycle_a)
          + payloadByteSize (on_raw_packet_message c6_cycle_c))
      ∧ payloadByteSize (on_raw_packet_message c6_cycle_a)
          + payloadByteSize (on_raw_packet_message c6_cycle_c) = 250) := by
  refine ⟨?_, rfl, ?_, ?_, ?_⟩
  · intro received hne
    refine ⟨?_, concat_all_count received, ?_⟩
    · simp [window_emit, hne]
    · rw [payloadByteSize, concat_all_payload]
      simp only [List.length_flatten, List.map_map]
      rfl
  · decide
  · decide
  · decide

theorem window_batching_witness :
    ([on_raw_packet_message c1_msg] ≠ ([] : List packet_data_buffer))
    ∧ (window_emit [on_raw_packet_message c1_msg] =
        some (concat_all [on_raw_packet_message c1_msg])
      ∧ (concat_all [on_raw_packet_message c1_msg]).m_num_packets =
        ttlPackets [on_raw_packet_message c1_msg]
      ∧ payloadByteSize (concat_all [on_raw_packet_message c1_msg]) =
        ttlPayloadBytes [on_raw_packet_message c1_msg]) :=
  ⟨by decide, window_batching.1 [on_raw_packet_message c1_msg] (by decide)⟩

/-- Events the accumulation loop observes on the handoff channel, in
program order.  `recv b` is an `await_read_until` call that returned
`Status::success` with buffer `b`; `windowEnd` is the wall clock passing
`poll_end`, ending the inner while-loop; `closed leftover` is
`is_channel_closed()` turning true (after the producer called
`close_channel()` in the stage's completion handler,
doca_convert_stage.cpp lines 198-204) while `leftover` buffers were still
sitting unread in the channel. -/
inductive ChanEvent where
  | recv (b : packet_data_buffer)
  | windowEnd
  | closed (leftover : List packet_data_buffer)
deriving DecidableEq

/-- Emission step at the end of a window or at shutdown: `buffer_reader`
emits one combined buffer iff the accumulated vector is non-empty
(`if (!packets.empty())`). -/
def emit_acc (acc : List packet_data_buffer) : List packet_data_buffer :=
  if acc.isEmpty then [] else [concat_all acc]

/-- Model of `DocaConvertStage::buffer_reader` (doca_convert_stage.cpp
lines 251-285) run over a channel-event trace.  Both the inner and the
outer while-loop test `!m_buffer_channel->is_channel_closed()`, so the
first `closed` event stops all reading: the loop emits the buffers it had
already accumulated (if any) and returns.  The result is the list of
emitted combined batches together with the buffers that were still
buffered in the channel when the loop stopped (which the code never
reads).  An exhausted trace without a `closed` event means the loop is
still running, with nothing further observed. -/
def buffer_reader_run : List ChanEvent → List packet_data_buffer →
    List packet_data_buffer × List packet_data_buffer
  | [], _acc => ([], [])
  | ChanEvent.recv b :: rest, acc => buffer_reader_run rest (acc ++ [b])
  | ChanEvent.windowEnd :: rest, acc =>
    let r := buffer_reader_run rest []
    (emit_acc acc ++ r.1, r.2)
  | ChanEvent.closed leftover :: _rest, acc => (emit_acc acc, leftover)

/-- Concrete buffer left sitting in the channel for the C8 counterexample. -/
def c8_leftover : packet_data_buffer := ⟨1, [10], [1, 2], [2]⟩

/-- Counterexample to claim C8: if the producer closes the channel while a
buffer is still queued, the accumulation loop terminates without reading
it — it emits nothing and the queued buffer is discarded unemitted,
contradicting "drains every entry still buffered in the channel". -/
theorem channel_close_discards_buffered :
    buffer_reader_run [ChanEvent.closed [c8_leftover]] [] = ([], [c8_leftover])
    ∧ ([c8_leftover] : List packet_data_buffer) ≠ [] := by
  exact ⟨rfl, by decide⟩

/-- Claim C8 (amended): when the handoff channel is closed, the
accumulation loop emits one final partial batch of the buffers it had
already read before observing closure (if any) and terminates; buffers
still queued in the channel at closure are left unread and are not
emitted. -/
theorem channel_close_final_batch (bs leftover : List packet_data_buffer) :
    buffer_reader_run (bs.map ChanEvent.recv ++ [ChanEvent.closed leftover]) [] =
      (emit_acc bs, leftover) := by
  suffices h : ∀ (bs acc : List packet_data_buffer),
      buffer_reader_run (bs.map ChanEvent.recv ++ [ChanEvent.closed leftover]) acc =
        (emit_acc (acc ++ bs), leftover) by
    have := h bs []
    simpa using this
  intro bs
  induction bs with
  | nil => intro acc; simp [buffer_reader_run]
  | cons b t ih =>
    intro acc
    simp only [List.map_cons, List.cons_append, buffer_reader_run]
    rw [show (List.map ChanEvent.recv t).append [ChanEvent.closed leftover] =
      List.map ChanEvent.recv t ++ [ChanEvent.closed leftover] from rfl, ih]
    simp

/-- Ring capacity of the semaphore: `DocaSourceStage`'s constructor builds
`DocaSemaphore(m_context, 1024)`, and the polling loop uses
`m_semaphore->size()` as the modulus. -/
def semaphoreSize : Nat := 1024

/-- Host-side cursor update of one poll cycle of `DocaSourceStage::build`
(doca_source.cpp lines 121-176): a cycle that reports zero packets skips
straight back to polling and leaves `semaphore_idx_d` untouched; a cycle
that drains `count > 0` packets runs the gather kernel and then sets
`sem_idx_new = (sem_idx_old + 1) % m_semaphore->size()`. -/
def cycleAdvance (ringSize cursor count : Nat) : Nat :=
  if count = 0 then cursor else (cursor + 1) % ringSize

/-- Successive values of the semaphore-index cursor over a run of poll
cycles with the given per-cycle packet counts, starting from `cursor`
(`rmm::device_scalar<int32_t>(0, ...)` initializes it to 0 at loop
entry). -/
def cursorTrace (ringSize cursor : Nat) : List Nat → List Nat
  | [] => [cursor]
  | n :: rest => cursor :: cursorTrace ringSize (cycleAdvance ringSize cursor n) rest

theorem cursorTrace_mem_lt (ringSize : Nat) (hring : 0 < ringSize) :
    ∀ (counts : List Nat) (cursor : Nat), cursor < ringSize →
      ∀ x ∈ cursorTrace ringSize cursor counts, x < ringSize := by
  intro counts
  induction counts with
  | nil =>
    intro cursor hc x hx
    simp only [cursorTrace, List.mem_singleton] at hx
    omega
  | cons n rest ih =>
    intro cursor hc x hx
    simp only [cursorTrace, List.mem_cons] at hx
    rcases hx with rfl | hx
    · exact hc
    · apply ih (cycleAdvance ringSize cursor n) _ x hx
      unfold cycleAdvance
      split
      · exact hc
      · exact Nat.mod_lt _ hring

/-- Claim C2: the semaphore-ring cursor starts at 0, always stays inside
`[0, ring_capacity)`, and a cycle that drains a non-zero packet count
advances it by exactly one modulo the capacity, while a zero-packet cycle
leaves it unchanged (never skipped, never repeated). -/
theorem semaphore_cursor_invariant :
    (∀ counts : List Nat, (cursorTrace semaphoreSize 0 counts).head? = some 0)
    ∧ (∀ (counts : List Nat) (x : Nat),
        x ∈ cursorTrace semaphoreSize 0 counts → x < semaphoreSize)
    ∧ (∀ cursor count : Nat, count ≠ 0 →
        cycleAdvance semaphoreSize cursor count = (cursor + 1) % semaphoreSize)
    ∧ (∀ cursor count : Nat, count = 0 →
        cycleAdvance semaphoreSize cursor count = cursor)
    ∧ (∀ (counts : List Nat) (cursor count : Nat),
        cursorTrace semaphoreSize cursor (count :: counts) =
          cursor :: cursorTrace semaphoreSize (cycleAdvance semaphoreSize cursor count)
            counts) := by
  refine ⟨?_, ?_, ?_, ?_, ?_⟩
  · intro counts; cases counts <;> rfl
  · intro counts x hx
    exact cursorTrace_mem_lt semaphoreSize (by norm_num [semaphoreSize]) counts 0
      (by norm_num [semaphoreSize]) x hx
  · intro cursor count hc; simp [cycleAdvance, hc]
  · intro cursor count hc; simp [cycleAdvance, hc]
  · intro counts cursor count; rfl

theorem semaphore_cursor_invariant_witness :
    (cursorTrace semaphoreSize 0 [3, 0, 7]).head? = some 0
    ∧ ((1022 : Nat) ∈ cursorTrace semaphoreSize 0 [3, 0, 7] → (1022 : Nat) < semaphoreSize)
    ∧ ((7 : Nat) ≠ 0 ∧ cycleAdvance semaphoreSize 5 7 = (5 + 1) % semaphoreSize) :=
  ⟨semaphore_cursor_invariant.1 [3, 0, 7],
    fun h => semaphore_cursor_invariant.2.1 [3, 0, 7] 1022 h,
    by decide, semaphore_cursor_invariant.2.2.1 5 7 (by decide)⟩

/-- Observable effects of one poll cycle of `DocaSourceStage::build`:
which per-field device buffers (step-4 allocations, in bytes) were
allocated, whether the gather kernel ran, whether a message was emitted
downstream, whether the cycle raised a fatal error, and the cursor value
after the cycle. -/
structure CycleOutcome where
  fieldAllocations : List Nat
  gatherRan : Bool
  emitted : Bool
  fatalError : Bool
  cursorAfter : Nat
deriving DecidableEq, Repr

/-- Model of one poll cycle of `DocaSourceStage::build` (doca_source.cpp
lines 94-320) after the receive kernel reported `count` packets totalling
`sizeTotal` payload bytes.  `if (packet_count == 0) continue;` (lines
121-128) returns to polling before any of the thirteen per-field
allocations, the gather kernel, the cursor update or the emission; a
non-zero count allocates the exactly-sized per-field buffers (timestamp
4n, the four MAC/IP int64 columns 8n each, the two port columns 2n each,
offsets 4(n+1), four int32 columns 4n each, payload `sizeTotal`), runs the
gather kernel, advances the cursor and emits one message.  Neither branch
is an error. -/
def sourceCycle (ringSize cursor count sizeTotal : Nat) : CycleOutcome :=
  if count = 0 then
    { fieldAllocations := []
      gatherRan := false
      emitted := false
      fatalError := false
      cursorAfter := cursor }
  else
    { fieldAllocations := [4 * count, 8 * count, 8 * count, 8 * count, 8 * count,
        2 * count, 2 * count, 4 * (count + 1), 4 * count, 4 * count, 4 * count,
        4 * count, sizeTotal]
      gatherRan := true
      emitted := true
      fatalError := false
      cursorAfter := cycleAdvance ringSize cursor count }

/-- Claim C3: a poll cycle whose reported packet count is zero performs no
per-field device-buffer allocation, runs no gather kernel, emits nothing
downstream, leaves the semaphore cursor unchanged and is not an error —
the loop simply polls again. -/
theorem zero_packet_cycle_is_noop (ringSize cursor sizeTotal : Nat) :
    sourceCycle ringSize cursor 0 sizeTotal =
      { fieldAllocations := []
        gatherRan := false
        emitted := false
        fatalError := false
        cursorAfter := cursor } := rfl

/-- Whitespace as skipped by a `%hhu` conversion of `sscanf` (C locale
`isspace`): space, tab, newline, vertical tab, form feed, carriage
return. -/
def isSpaceChar (c : Char) : Bool :=
  c.toNat = 32 || c.toNat = 9 || c.toNat = 10 || c.toNat = 11 || c.toNat = 12 ||
    c.toNat = 13

/-- ASCII decimal digit test. -/
def isDigitChar (c : Char) : Bool := 48 ≤ c.toNat && c.toNat ≤ 57

/-- Numeric value of an ASCII digit character. -/
def charVal (c : Char) : Nat := c.toNat - 48

/-- Value of a most-significant-digit-first digit string. -/
def valMSB (cs : List Char) : Nat := cs.foldl (fun a c => a * 10 + charVal c) 0

/-- Value stored by a `%hhu` conversion: glibc converts the digit string
with `strtoul` (clamping at `ULONG_MAX` on overflow), negates modulo
2^64 if a leading minus sign was consumed, and stores the low byte into
the `unsigned char` argument. -/
def octetStore (neg : Bool) (v : Nat) : Nat :=
  let u := min v 18446744073709551615
  (if neg then (18446744073709551616 - u) % 18446744073709551616 else u) % 256

/-- One `%hhu` conversion of `sscanf`: skip whitespace, consume an
optional sign, then a non-empty run of decimal digits; fail (matching
failure, ending the scan) if no digit follows.  Returns the stored octet
value and the unconsumed remainder. -/
def parseOctet (cs : List Char) : Option (Nat × List Char) :=
  let cs1 := cs.dropWhile isSpaceChar
  let sg : Bool × List Char :=
    match cs1 with
    | c :: rest =>
      if c.toNat = 45 then (true, rest)
      else if c.toNat = 43 then (false, rest)
      else (false, cs1)
    | [] => (false, cs1)
  let ds := sg.2.takeWhile isDigitChar
  if ds.isEmpty then none
  else some (octetStore sg.1 (valMSB ds), sg.2.drop ds.length)

/-- The literal `.` of the format string `"%hhu.%hhu.%hhu.%hhu"`: matches
exactly one `.` (no whitespace skip for a non-space literal). -/
def expectDot (cs : List Char) : Option (List Char) :=
  match cs with
  | c :: rest => if c = '.' then some rest else none
  | [] => none

/-- Model of `sscanf(ip_address.c_str(), "%hhu.%hhu.%hhu.%hhu", ...)`
returning 4: all four conversions succeed (trailing unmatched input is
ignored, as `sscanf` ignores it). -/
def scan_ipv4 (s : String) : Option (Nat × Nat × Nat × Nat) := do
  let (a, r1) ← parseOctet s.toList
  let r2 ← expectDot r1
  let (b, r3) ← parseOctet r2
  let r4 ← expectDot r3
  let (c, r5) ← parseOctet r4
  let r6 ← expectDot r5
  let (d, _r7) ← parseOctet r6
  pure (a, b, c, d)

/-- Byte swap of a 32-bit value, as `RTE_STATIC_BSWAP32` performs on a
little-endian host inside `RTE_BE32`. -/
def bswap32 (x : Nat) : Nat :=
  (x % 256) * 16777216 + (x / 256 % 256) * 65536 + (x / 65536 % 256) * 256 +
    (x / 16777216 % 256)

/-- Model of `ip_to_int` (doca_source.cpp lines 38-58): the empty string
returns 0 immediately; otherwise the string is scanned as
`"%hhu.%hhu.%hhu.%hhu"`, and on a full 4-conversion scan the macro
`BE_IPV4_ADDR(a,b,c,d) = RTE_BE32((a<<24)+(b<<16)+(c<<8)+d)` is returned
(byte-swapped on the little-endian host, i.e. the 32-bit value whose
little-endian byte layout is `a,b,c,d` — network byte order); any other
scan result yields `nullopt`. -/
def ip_to_int (s : String) : Option Nat :=
  if s.isEmpty then some 0
  else
    match scan_ipv4 s with
    | some (a, b, c, d) =>
      some (bswap32 ((a * 16777216 + b * 65536 + c * 256 + d) % 4294967296))
    | none => none

/-- The hardware resources `DocaSourceStage`'s constructor acquires, in
acquisition order. -/
inductive HwResource where
  | context
  | rxq
  | semaphore
  | rxpipe
deriving DecidableEq, Repr

/-- Model of `DocaSourceStage::DocaSourceStage` (doca_source.cpp lines
62-83): `ip_to_int` runs first; if it returns `nullopt` the constructor
throws `"source ip filter invalid"` before `m_context`, `m_rxq`,
`m_semaphore` or `m_rxpipe` is created, so the acquired-resource list is
empty; otherwise all four resources are created in order.  Returns the
acquired resources and the error message, if any. -/
def docaSourceStageInit (source_ip_filter : String) :
    List HwResource × Option String :=
  match ip_to_int source_ip_filter with
  | none => ([], some "source ip filter invalid")
  | some _ =>
    ([HwResource.context, HwResource.rxq, HwResource.semaphore, HwResource.rxpipe],
      none)

/-- Decimal rendering of `n` as a character list, most significant digit
first (the standard numeral, e.g. `decChars 45 = ['4','5']`). -/
def decChars (n : Nat) : List Char :=
  if n = 0 then ['0'] else ((Nat.digits 10 n).map Nat.digitChar).reverse

/-- The dotted-decimal string `"a.b.c.d"`. -/
def ipString (a b c d : Nat) : String :=
  String.mk (decChars a ++ '.' :: (decChars b ++ '.' :: (decChars c ++ '.' :: decChars d)))

section DigitLemmas

theorem digitChar_toNat (d : Nat) (h : d < 10) : (Nat.digitChar d).toNat = 48 + d := by
  interval_cases d <;> decide

theorem isDigitChar_digitChar (d : Nat) (h : d < 10) :
    isDigitChar (Nat.digitChar d) = true := by
  simp only [isDigitChar, digitChar_toNat d h, Bool.and_eq_true, decide_eq_true_eq]
  omega

theorem charVal_digitChar (d : Nat) (h : d < 10) : charVal (Nat.digitChar d) = d := by
  simp only [charVal, digitChar_toNat d h]
  omega

theorem isDigitChar_facts (c : Char) (h : isDigitChar c = true) :
    isSpaceChar c = false ∧ c.toNat ≠ 45 ∧ c.toNat ≠ 43 := by
  simp only [isDigitChar, Bool.and_eq_true, decide_eq_true_eq] at h
  refine ⟨?_, by omega, by omega⟩
  simp only [isSpaceChar, Bool.or_eq_false_iff, decide_eq_false_iff_not]
  omega

theorem decChars_all_digits (n : Nat) : ∀ c ∈ decChars n, isDigitChar c = true := by
  intro c hc
  unfold decChars at hc
  split at hc
  · simp only [List.mem_singleton] at hc
    subst hc
    decide
  · simp only [List.mem_reverse, List.mem_map] at hc
    obtain ⟨d, hd, rfl⟩ := hc
    exact isDigitChar_digitChar d (Nat.digits_lt_base (by norm_num) hd)

theorem decChars_ne_nil (n : Nat) : decChars n ≠ [] := by
  unfold decChars
  split
  · simp
  · simp only [ne_eq, List.reverse_eq_nil_iff, List.map_eq_nil_iff]
    intro hh
    exact absurd (Nat.digits_eq_nil_iff_eq_zero.mp hh) (by assumption)

theorem foldl_digitChars (ds : List Nat) (h : ∀ d ∈ ds, d < 10) (a : Nat) :
    ((ds.map Nat.digitChar).reverse).foldl (fun acc c => acc * 10 + charVal c) a =
      a * 10 ^ ds.length + Nat.ofDigits 10 ds := by
  induction ds generalizing a with
  | nil => simp [Nat.ofDigits_nil]
  | cons d t ih =>
    have hd : d < 10 := h d (List.mem_cons_self d t)
    have ht : ∀ x ∈ t, x < 10 := fun x hx => h x (List.mem_cons_of_mem d hx)
    simp only [List.map_cons, List.reverse_cons, List.foldl_append, List.foldl_cons,
      List.foldl_nil, ih ht a, charVal_digitChar d hd, Nat.ofDigits_cons,
      List.length_cons]
    ring

theorem valMSB_decChars (n : Nat) : valMSB (decChars n) = n := by
  unfold valMSB decChars
  split
  · rename_i h0
    subst h0
    decide
  · rw [foldl_digitChars (Nat.digits 10 n) (fun d hd => Nat.digits_lt_base (by norm_num) hd) 0]
    simp [Nat.ofDigits_digits]

end DigitLemmas

section ScanLemmas

theorem takeWhile_append_all (p : Char → Bool) :
    ∀ (xs rest : List Char), (∀ c ∈ xs, p c = true) →
      (∀ c, rest.head? = some c → p c = false) →
      (xs ++ rest).takeWhile p = xs := by
  intro xs
  induction xs with
  | nil =>
    intro rest _ hrest
    cases rest with
    | nil => rfl
    | cons c t =>
      simp [List.takeWhile_cons, hrest c rfl]
  | cons x xt ih =>
    intro rest hall hrest
    simp only [List.cons_append, List.takeWhile_cons, hall x (List.mem_cons_self x xt),
      if_true]
    rw [ih rest (fun c hc => hall c (List.mem_cons_of_mem x hc)) hrest]

theorem parseOctet_digits (ds rest : List Char) (hne : ds ≠ [])
    (hall : ∀ c ∈ ds, isDigitChar c = true)
    (hrest : ∀ c, rest.head? = some c → isDigitChar c = false) :
    parseOctet (ds ++ rest) = some (octetStore false (valMSB ds), rest) := by
  obtain ⟨c0, tl, rfl⟩ : ∃ c0 tl, ds = c0 :: tl := by
    cases ds with
    | nil => exact absurd rfl hne
    | cons a t => exact ⟨a, t, rfl⟩
  have hc0 : isDigitChar c0 = true := hall c0 (List.mem_cons_self c0 tl)
  obtain ⟨hsp, h45, h43⟩ := isDigitChar_facts c0 hc0
  have htake : ((c0 :: tl) ++ rest).takeWhile isDigitChar = c0 :: tl :=
    takeWhile_append_all isDigitChar (c0 :: tl) rest hall hrest
  simp only [parseOctet, List.cons_append, List.dropWhile_cons, hsp, Bool.false_eq_true,
    if_false, if_neg h45, if_neg h43]
  simp only [← List.cons_append, htake, List.isEmpty_cons, List.drop_left]
  rfl

theorem parseOctet_decChars (n : Nat) (hn : n < 256) (rest : List Char)
    (hrest : ∀ c, rest.head? = some c → isDigitChar c = false) :
    parseOctet (decChars n ++ rest) = some (n, rest) := by
  rw [parseOctet_digits (decChars n) rest (decChars_ne_nil n) (decChars_all_digits n)
    hrest]
  congr 1
  rw [valMSB_decChars]
  simp only [octetStore]
  rw [Nat.min_eq_left (by omega)]
  simp [Nat.mod_eq_of_lt hn]

theorem dot_head_not_digit : ∀ c : Char, ('.' :: (t : List Char)).head? = some c →
    isDigitChar c = false := by
  intro c hc
  simp only [List.head?_cons, Option.some_inj] at hc
  subst hc
  decide

theorem expectDot_dot (t : List Char) : expectDot ('.' :: t) = some t := by
  simp [expectDot]

theorem scan_ipv4_ipString (a b c d : Nat) (ha : a < 256) (hb : b < 256)
    (hc : c < 256) (hd : d < 256) :
    scan_ipv4 (ipString a b c d) = some (a, b, c, d) := by
  have hdot : ∀ (t : List Char) (x : Char), ('.' :: t).head? = some x →
      isDigitChar x = false := fun t x hx => dot_head_not_digit x hx
  have hnil : ∀ x : Char, ([] : List Char).head? = some x → isDigitChar x = false := by
    intro x hx
    simp at hx
  have h1 : (ipString a b c d).toList =
      decChars a ++ '.' :: (decChars b ++ '.' :: (decChars c ++ '.' :: decChars d)) := rfl
  simp only [scan_ipv4, h1]
  rw [parseOctet_decChars a ha _ (hdot _)]
  simp only [Option.bind_eq_bind, Option.some_bind]
  rw [expectDot_dot]
  simp only [Option.some_bind]
  rw [parseOctet_decChars b hb _ (hdot _)]
  simp only [Option.some_bind]
  rw [expectDot_dot]
  simp only [Option.some_bind]
  rw [parseOctet_decChars c hc _ (hdot _)]
  simp only [Option.some_bind]
  rw [expectDot_dot]
  simp only [Option.some_bind]
  rw [show decChars d = decChars d ++ [] from (List.append_nil _).symm,
    parseOctet_decChars d hd [] hnil]
  rfl

theorem bswap32_be (a b c d : Nat) (ha : a < 256) (hb : b < 256) (hc : c < 256)
    (hd : d < 256) :
    bswap32 ((a * 16777216 + b * 65536 + c * 256 + d) % 4294967296) =
      a + b * 256 + c * 65536 + d * 16777216 := by
  have hlt : a * 16777216 + b * 65536 + c * 256 + d < 4294967296 := by omega
  rw [Nat.mod_eq_of_lt hlt]
  unfold bswap32
  omega

end ScanLemmas

theorem isEmpty_false_of_ne (s : String) (h : s ≠ "") : s.isEmpty = false := by
  cases hb : s.isEmpty
  · rfl
  · exact absurd ((String.isEmpty_iff s).mp hb) h

theorem ipString_ne_empty (a b c d : Nat) : ipString a b c d ≠ "" := by
  intro h
  have h2 : (ipString a b c d).toList = ("" : String).toList := by rw [h]
  simp only [ipString] at h2
  rcases List.append_eq_nil.mp h2 with ⟨_, h4⟩
  exact List.cons_ne_nil _ _ h4

/-- Counterexample to claim C9: the empty string does not scan as four
dotted decimal octets, yet `DocaSourceStage` construction does not throw —
`ip_to_int` maps `""` to 0 and all four hardware resources are created. -/
theorem empty_filter_not_rejected :
    scan_ipv4 "" = none
    ∧ docaSourceStageInit "" =
      ([HwResource.context, HwResource.rxq, HwResource.semaphore, HwResource.rxpipe],
        none) :=
  ⟨rfl, rfl⟩

/-- Claim C9 (amended): for every NON-EMPTY source-IP filter string that
does not scan as four dotted decimal octets, constructing the capture
source stage throws `"source ip filter invalid"` before any hardware
resource (Context, ReceiveQueue, SemaphoreRing, FlowPipe) is created; and
for every string of the form `"a.b.c.d"` with octets in range, parsing
succeeds and returns the big-endian 32-bit encoding of the address (the
value whose little-endian byte layout is `a,b,c,d`). -/
theorem filter_parse_spec :
    (∀ s : String, s ≠ "" → scan_ipv4 s = none →
      docaSourceStageInit s = ([], some "source ip filter invalid"))
    ∧ (∀ a b c d : Nat, a < 256 → b < 256 → c < 256 → d < 256 →
      ip_to_int (ipString a b c d) =
        some (a + b * 256 + c * 65536 + d * 16777216)) := by
  constructor
  · intro s hs hscan
    simp only [docaSourceStageInit, ip_to_int, isEmpty_false_of_ne s hs,
      Bool.false_eq_true, if_false, hscan]
  · intro a b c d ha hb hc hd
    simp only [ip_to_int, isEmpty_false_of_ne _ (ipString_ne_empty a b c d),
      Bool.false_eq_true, if_false, scan_ipv4_ipString a b c d ha hb hc hd,
      bswap32_be a b c d ha hb hc hd]

theorem filter_parse_spec_witness :
    ("1.2.3" ≠ "" ∧ scan_ipv4 "1.2.3" = none
      ∧ docaSourceStageInit "1.2.3" = ([], some "source ip filter invalid"))
    ∧ ((10 : Nat) < 256 ∧ (0 : Nat) < 256 ∧ (5 : Nat) < 256
      ∧ ip_to_int (ipString 10 0 0 5) = some (10 + 0 * 256 + 0 * 65536 + 5 * 16777216)) :=
  ⟨⟨by decide, by decide,
      filter_parse_spec.1 "1.2.3" (by decide) (by decide)⟩,
    ⟨by decide, by decide, by decide,
      filter_parse_spec.2 10 0 0 5 (by decide) (by decide) (by decide) (by decide)⟩⟩

/-- Claim C10: the IP-filter parser treats the empty string as valid,
returning 0 rather than failing, so constructing the capture source stage
with an empty filter succeeds at the parse step; exactly the non-empty
strings that fail to scan as four octets are rejected. -/
theorem empty_filter_accepted :
    ip_to_int "" = some 0
    ∧ docaSourceStageInit "" =
      ([HwResource.context, HwResource.rxq, HwResource.semaphore, HwResource.rxpipe],
        none)
    ∧ (∀ s : String, (docaSourceStageInit s).2.isSome = true ↔
        (s ≠ "" ∧ scan_ipv4 s = none)) := by
  refine ⟨rfl, rfl, ?_⟩
  intro s
  by_cases he : s.isEmpty = true
  · have hs : s = "" := (String.isEmpty_iff s).mp he
    subst hs
    decide
  · have hne : s ≠ "" := fun hh => he ((String.isEmpty_iff s).mpr hh)
    have he2 : s.isEmpty = false := isEmpty_false_of_ne s hne
    cases hscan : scan_ipv4 s with
    | none =>
      simp [docaSourceStageInit, ip_to_int, he2, hscan, hne]
    | some q =>
      obtain ⟨a, b, c, d⟩ := q
      simp [docaSourceStageInit, ip_to_int, he2, hscan]

theorem empty_filter_accepted_witness :
    (docaSourceStageInit "1.2.3.4.5").2.isSome = false
    ∧ ("1.2.3.4.5" ≠ "" ∧ scan_ipv4 "1.2.3.4.5" = none → False) := by
  constructor
  · have h := (empty_filter_accepted.2.2 "1.2.3.4.5").not
    simp only [not_and, ne_eq] at h ⊢
    cases hq : (docaSourceStageInit "1.2.3.4.5").2.isSome
    · rfl
    · exfalso
      have := (empty_filter_accepted.2.2 "1.2.3.4.5").mp hq
      exact absurd this.2 (by decide)
  · intro hcontr
    exact absurd hcontr.2 (by decide)

/-- Forwarding action of a DOCA flow pipe or entry. -/
inductive FlowFwd where
  | rss
  | drop
  | toPipe (target : String)
deriving DecidableEq, Repr

/-- The match fields the rx-pipe code sets: outer L3 type IPv4 and outer
L4 type TCP. -/
structure FlowMatch where
  l3_ipv4 : Bool
  l4_tcp : Bool
deriving DecidableEq, Repr

/-- One hardware flow-API call made by `DocaRxPipe`. -/
inductive FlowAction where
  | createPipe (pipeName : String) (isRoot : Bool) (isControl : Bool)
      (fwd : Option FlowFwd) (missFwd : Option FlowFwd)
  | addEntry (pipeName : String)
  | addControlEntry (pipeName : String) (priority : Nat) (m : FlowMatch) (fwd : FlowFwd)
  | entriesProcess
  | destroyPipe (pipeName : String)
deriving DecidableEq, Repr

/-- Name of the basic match pipe (`pipe_cfg.attr.name`). -/
def basicPipeName : String := "GPU_RXQ_TCP_PIPE"

/-- Name of the root control pipe (`root_pipe_cfg.attr.name`). -/
def rootPipeName : String := "ROOT_PIPE"

/-- The fixed low priority value `priority_low = 3` used for the root
control-pipe entry (`priority_high = 1` is declared but unused). -/
def priority_low : Nat := 3

/-- Model of `DocaRxPipe::DocaRxPipe` (doca_rx_pipe.cpp lines 25-106) as
the ordered sequence of hardware flow-API calls it performs: create the
basic match pipe (RSS forward, `miss_fwd.type = DOCA_FLOW_FWD_DROP`), add
one placeholder entry to it and commit (`doca_flow_entries_process`),
create the root control pipe, add one control entry at `priority_low`
matching outer IPv4 + TCP and forwarding into the basic pipe, and commit
again. -/
def docaRxPipeConstruct : List FlowAction :=
  [ FlowAction.createPipe basicPipeName false false (some FlowFwd.rss)
      (some FlowFwd.drop),
    FlowAction.addEntry basicPipeName,
    FlowAction.entriesProcess,
    FlowAction.createPipe rootPipeName true true none none,
    FlowAction.addControlEntry rootPipeName priority_low ⟨true, true⟩
      (FlowFwd.toPipe basicPipeName),
    FlowAction.entriesProcess ]

/-- Model of `DocaRxPipe::~DocaRxPipe` (doca_rx_pipe.cpp lines 108-112):
the root pipe is destroyed first, then the basic pipe. -/
def docaRxPipeDestruct : List FlowAction :=
  [ FlowAction.destroyPipe rootPipeName, FlowAction.destroyPipe basicPipeName ]

/-- Recognizes the basic pipe's placeholder entry. -/
def isPlaceholderEntry : FlowAction → Bool
  | FlowAction.addEntry p => p == basicPipeName
  | _ => false

/-- Recognizes a root control-pipe entry. -/
def isRootEntry : FlowAction → Bool
  | FlowAction.addControlEntry p _ _ _ => p == rootPipeName
  | _ => false

/-- Recognizes the creation of the root pipe. -/
def isRootCreate : FlowAction → Bool
  | FlowAction.createPipe p _ _ _ _ => p == rootPipeName
  | _ => false

/-- Recognizes a commit (`doca_flow_entries_process`). -/
def isCommit : FlowAction → Bool
  | FlowAction.entriesProcess => true
  | _ => false

/-- Recognizes the creation of the basic match pipe. -/
def isBasicCreate : FlowAction → Bool
  | FlowAction.createPipe p _ _ _ _ => p == basicPipeName
  | _ => false

/-- Claim C7: flow pipe construction installs exactly one placeholder
entry on the basic match pipe, committed before the root pipe (and hence
before any root-pipe entry) exists; exactly one root control-pipe entry,
at the fixed low priority 3, matching IPv4 + TCP and forwarding into the
basic pipe; the basic pipe's miss action drops unmatched traffic; and
destruction destroys the root pipe first, then the basic pipe. -/
theorem rx_pipe_construction :
    (docaRxPipeConstruct.filter isPlaceholderEntry).length = 1
    ∧ (docaRxPipeConstruct.filter isRootEntry).length = 1
    ∧ (∀ a ∈ docaRxPipeConstruct, isRootEntry a = true →
        a = FlowAction.addControlEntry rootPipeName priority_low ⟨true, true⟩
          (FlowFwd.toPipe basicPipeName))
    ∧ priority_low = 3
    ∧ (∀ a ∈ docaRxPipeConstruct, isBasicCreate a = true →
        a = FlowAction.createPipe basicPipeName false false (some FlowFwd.rss)
          (some FlowFwd.drop))
    ∧ docaRxPipeConstruct.findIdx isPlaceholderEntry <
        docaRxPipeConstruct.findIdx isRootCreate
    ∧ docaRxPipeConstruct.findIdx isCommit <
        docaRxPipeConstruct.findIdx isRootCreate
    ∧ docaRxPipeConstruct.findIdx isRootCreate <
        docaRxPipeConstruct.findIdx isRootEntry
    ∧ docaRxPipeDestruct =
        [FlowAction.destroyPipe rootPipeName, FlowAction.destroyPipe basicPipeName] := by
  refine ⟨by decide, by decide, by decide, rfl, by decide, by decide, by decide,
    by decide, rfl⟩
